import Mathlib

/-!
Shallow embedding of the ephemeral crate (src/lib.rs, src/builder.rs,
src/rust_tools.rs): the in-memory Project/Dir/File tree, the two builders,
the Cargo manifest model, and an explicit-state filesystem over which
materialization (build) and teardown (clear) are interpreted.
-/

/-- A filesystem path (Rust `PathBuf`): absoluteness flag plus components. -/
structure FsPath where
  absolute : Bool
  components : List String
deriving DecidableEq, Repr

/-- `Path::is_relative`. -/
def FsPath.isRelative (p : FsPath) : Bool := !p.absolute

/-- `PathBuf::join`: an absolute right operand replaces the left one. -/
def FsPath.join (p q : FsPath) : FsPath :=
  if q.absolute then q else ⟨p.absolute, p.components ++ q.components⟩

/-- `p` is `q` itself or an ancestor directory of `q`. -/
def FsPath.isAncestorOrSelf (p q : FsPath) : Bool :=
  p.absolute == q.absolute && p.components.isPrefixOf q.components

/-- A filesystem node: a directory, or a plain file with byte contents. -/
inductive Node where
  | dir : Node
  | file : List Nat → Node
deriving DecidableEq, Repr

/-- The filesystem state: an association list from paths to nodes. -/
abbrev FS := List (FsPath × Node)

def lookupFS (fs : FS) (p : FsPath) : Option Node :=
  (fs.find? (fun e => decide (e.1 = p))).map (fun e => e.2)

def setFS (fs : FS) (p : FsPath) (n : Node) : FS :=
  (p, n) :: fs.filter (fun e => !decide (e.1 = p))

/-- I/O error kinds surfaced by the modelled filesystem operations. -/
inductive IOErr where
  | notADirectory : FsPath → IOErr
  | isADirectory : FsPath → IOErr
  | notFound : FsPath → IOErr
  | alreadyExists : FsPath → IOErr
deriving DecidableEq, Repr

/-- The nonempty prefixes of `p`, shortest first, ending with `p` itself. -/
def FsPath.ancestorChain (p : FsPath) : List FsPath :=
  (List.range p.components.length).map (fun i => ⟨p.absolute, p.components.take (i + 1)⟩)

/-- Create one directory level: ok when already a directory, error when the
path is occupied by a plain file. -/
def mkdirOne (fs : FS) (p : FsPath) : Except IOErr FS :=
  match lookupFS fs p with
  | some Node.dir => .ok fs
  | some (Node.file _) => .error (.notADirectory p)
  | none => .ok (setFS fs p Node.dir)

/-- `FilePath::mkdir_p` (`fs::create_dir_all`): recursively creates `p` and
all missing ancestors; idempotent when the directory already exists. -/
def mkdir_p (fs : FS) (p : FsPath) : Except IOErr FS :=
  p.ancestorChain.foldlM mkdirOne fs

/-- `FilePath::mkdir` (`fs::create_dir`): creates exactly `p`; the parent
must already exist and `p` must not. -/
def mkdir (fs : FS) (p : FsPath) : Except IOErr FS :=
  match lookupFS fs p with
  | some _ => .error (.alreadyExists p)
  | none =>
    if p.components.length ≤ 1 then .ok (setFS fs p Node.dir)
    else
      match lookupFS fs ⟨p.absolute, p.components.dropLast⟩ with
      | some Node.dir => .ok (setFS fs p Node.dir)
      | _ => .error (.notFound ⟨p.absolute, p.components.dropLast⟩)

/-- `fs::File::create` followed by `write_all`: truncates/overwrites an
existing plain file, errors on an existing directory or on a missing or
non-directory parent. In this model the write to a freshly created handle
cannot fail, so the two fallible Rust calls collapse into one step; a path
with at most one component is created directly in the working or root
directory. -/
def createFile (fs : FS) (p : FsPath) (contents : List Nat) : Except IOErr FS :=
  match lookupFS fs p with
  | some Node.dir => .error (.isADirectory p)
  | _ =>
    if p.components.length ≤ 1 then .ok (setFS fs p (Node.file contents))
    else
      match lookupFS fs ⟨p.absolute, p.components.dropLast⟩ with
      | some Node.dir => .ok (setFS fs p (Node.file contents))
      | some (Node.file _) => .error (.notADirectory ⟨p.absolute, p.components.dropLast⟩)
      | none => .error (.notFound ⟨p.absolute, p.components.dropLast⟩)

/-- `fs::remove_dir_all`: removes `p` and every entry beneath it; errors
when `p` is missing or is a plain file. -/
def remove_dir_all (fs : FS) (p : FsPath) : Except IOErr FS :=
  match lookupFS fs p with
  | some Node.dir => .ok (fs.filter (fun e => !(FsPath.isAncestorOrSelf p e.1)))
  | some (Node.file _) => .error (.notADirectory p)
  | none => .error (.notFound p)

/-- `File` (src/lib.rs): a path and its intended byte contents. -/
structure File where
  path : FsPath
  contents : List Nat
deriving DecidableEq, Repr

/-- `File::new`. -/
def File.new (path : FsPath) (contents : List Nat) : File :=
  { path := path, contents := contents }

/-- `Dir` (src/lib.rs): a path and the files added to it. -/
structure Dir where
  path : FsPath
  files : List File
deriving DecidableEq, Repr

/-- `Dir::new`. -/
def Dir.new (path : FsPath) : Dir :=
  { path := path, files := [] }

/-- `Dir::add_file`: a relative argument is joined onto the Dir's own path,
an absolute one is used verbatim; the File is pushed onto `files` and the
Dir is returned for chaining. -/
def Dir.add_file (d : Dir) (path : FsPath) (contents : List Nat) : Dir :=
  let full_path := if path.isRelative then d.path.join path else path
  { d with files := d.files ++ [File.new full_path contents] }

/-- `Project` (src/lib.rs): the root path and the ordered list of Dirs. -/
structure Project where
  path : FsPath
  dirs : List Dir
deriving DecidableEq, Repr

/-- `Project::new`: the Dir list starts with a synthesized root Dir. -/
def Project.new (path : FsPath) : Project :=
  { dirs := [Dir.new path], path := path }

/-- `Project::add_dir`: pushes the Dir and returns self for chaining. -/
def Project.add_dir (p : Project) (d : Dir) : Project :=
  { p with dirs := p.dirs ++ [d] }

/-- One materialization step of the build loop. -/
inductive Step where
  | mkdirP : FsPath → Step
  | writeFile : FsPath → List Nat → Step
deriving DecidableEq, Repr

def applyStep (fs : FS) : Step → Except IOErr FS
  | .mkdirP p => mkdir_p fs p
  | .writeFile p c => createFile fs p c

/-- Runs steps in order, stopping at the first error with the state reached
so far (no rollback). -/
def runSteps (fs : FS) : List Step → FS × Option IOErr
  | [] => (fs, none)
  | s :: rest =>
    match applyStep fs s with
    | .ok fs' => runSteps fs' rest
    | .error e => (fs, some e)

/-- The inner loop of both build functions: create each file of a Dir in
order, stopping at the first error. -/
def buildFiles (fs : FS) : List File → FS × Option IOErr
  | [] => (fs, none)
  | f :: rest =>
    match createFile fs f.path f.contents with
    | .ok fs' => buildFiles fs' rest
    | .error e => (fs, some e)

/-- The outer loop of both build functions: for each Dir in order, mkdir_p
its path and then create its files, stopping at the first error. -/
def buildDirs (fs : FS) : List Dir → FS × Option IOErr
  | [] => (fs, none)
  | d :: rest =>
    match mkdir_p fs d.path with
    | .ok fs1 =>
      match buildFiles fs1 d.files with
      | (fs2, none) => buildDirs fs2 rest
      | (fs2, some e) => (fs2, some e)
    | .error e => (fs, some e)

/-- `Project::build` (src/lib.rs): materializes the dirs; every failure goes
through `expect`, i.e. a panic, modelled as `none`. On success the updated
filesystem and self are returned. -/
def Project.build (p : Project) (fs : FS) : Option (FS × Project) :=
  match buildDirs fs p.dirs with
  | (fs', none) => some (fs', p)
  | (_, some _) => none

/-- `Project::clear` (src/lib.rs): `remove_dir_all(&self.dirs[0].path)`
followed by `expect`, i.e. a panic on failure, modelled as `none`; the
`dirs[0]` indexing itself panics when `dirs` is empty. -/
def Project.clear (p : Project) (fs : FS) : Option FS :=
  match p.dirs with
  | [] => none
  | d :: _ =>
    match remove_dir_all fs d.path with
    | .ok fs' => some fs'
    | .error _ => none

/-- `semver::Version`: major.minor.patch with pre-release and build
identifier lists. -/
structure Version where
  major : Nat
  minor : Nat
  patch : Nat
  pre : List String
  build : List String
deriving DecidableEq, Repr

/-- The canonical `major.minor.patch[-pre][+build]` rendering used by
semver's Display and by its Serialize implementation. -/
def Version.render (v : Version) : String :=
  Nat.repr v.major ++ "." ++ Nat.repr v.minor ++ "." ++ Nat.repr v.patch
    ++ (if v.pre.isEmpty then "" else "-" ++ String.intercalate "." v.pre)
    ++ (if v.build.isEmpty then "" else "+" ++ String.intercalate "." v.build)

/-- `Edition` (src/rust_tools.rs): the closed two-value enumeration. -/
inductive Edition where
  | Edition2015 : Edition
  | Edition2018 : Edition
deriving DecidableEq, Repr

/-- `Edition::serialize` (src/rust_tools.rs): the literal year strings. -/
def Edition.serialize (e : Edition) : String :=
  match e with
  | .Edition2015 => "2015"
  | .Edition2018 => "2018"

/-- `Config` (src/rust_tools.rs): the manifest's package section. -/
structure Config where
  name : String
  version : Version
  authors : List String
  edition : Edition
deriving DecidableEq, Repr

/-- `Config::default`: empty name, version 0.0.0, no authors, 2018. -/
def Config.default : Config :=
  { name := "", version := ⟨0, 0, 0, [], []⟩, authors := [], edition := .Edition2018 }

/-- `Manifest` (src/rust_tools.rs). The Rust `dependencies` field is an
`Option<HashMap<String, Version>>`; it is modelled as the map's entries in
iteration order. -/
structure Manifest where
  package : Config
  dependencies : Option (List (String × Version))
deriving DecidableEq, Repr

/-- `Manifest::default` (derived): default package, no dependencies. -/
def Manifest.default : Manifest :=
  { package := Config.default, dependencies := none }

/-- TOML basic-string quoting of a field value. -/
def tomlQuote (s : String) : String := "\"" ++ s ++ "\""

/-- TOML array rendering of a string list. -/
def tomlList (xs : List String) : String :=
  "[" ++ String.intercalate ", " (xs.map tomlQuote) ++ "]"

/-- Modelled from the spec: the package table emitted by the external toml
crate's serializer for `Config` (its source is not in this repository);
§4.5: name, canonical version string, ordered author list, and the edition
rendered by `Edition::serialize`. -/
def tomlPackage (c : Config) : String :=
  "[package]\n"
    ++ "name = " ++ tomlQuote c.name ++ "\n"
    ++ "version = " ++ tomlQuote c.version.render ++ "\n"
    ++ "authors = " ++ tomlList c.authors ++ "\n"
    ++ "edition = " ++ tomlQuote c.edition.serialize ++ "\n"

/-- Modelled from the spec: the dependencies table; a `None` map is skipped
by the serializer, so the section is omitted entirely (§4.5). -/
def tomlDependencies : Option (List (String × Version)) → String
  | none => ""
  | some deps =>
    "\n[dependencies]\n"
      ++ String.join (deps.map (fun d => d.1 ++ " = " ++ tomlQuote d.2.render ++ "\n"))

/-- Modelled from the spec: `toml::to_string(&manifest)` (the toml crate is
external to this repository): the package table followed by the optional
dependencies table. -/
def toml_to_string (m : Manifest) : String :=
  tomlPackage m.package ++ tomlDependencies m.dependencies

/-- Byte encoding of the serialized manifest text (`String::into_bytes`);
code points coincide with UTF-8 bytes on the ASCII documents involved. -/
def strBytes (s : String) : List Nat := s.toList.map Char.toNat

/-- `toml::ser::Error` (never produced for this data model). -/
inductive SerError where
  | unsupported : String → SerError
deriving DecidableEq, Repr

/-- Serialization of a manifest to bytes as performed inside
`add_cargo_toml`; total for this data model (§4.5 allows failure only for
field values not representable in the format, which cannot arise here). -/
def manifest_to_bytes (m : Manifest) : Except SerError (List Nat) :=
  Except.ok (strBytes (toml_to_string m))

/-- `GenericBuilder` (src/builder.rs). -/
structure GenericBuilder where
  path : FsPath
  project : Project
deriving DecidableEq, Repr

/-- `GenericBuilder::new`. -/
def GenericBuilder.new (path : FsPath) : GenericBuilder :=
  { path := path, project := Project.new path }

/-- `RustBuilder` (src/builder.rs). -/
structure RustBuilder where
  path : FsPath
  project : Project
  manifest : Manifest
deriving DecidableEq, Repr

/-- `RustBuilder::new`. -/
def RustBuilder.new (path : FsPath) : RustBuilder :=
  { project := Project.new path, path := path, manifest := Manifest.default }

/-- `Builder::add_dir` (trait default, src/builder.rs lines 29-34):
`self.project().dirs.push(dir)` pushes onto the temporary clone returned by
`project()`; the clone is dropped, so the builder is returned unchanged. -/
def GenericBuilder.add_dir (b : GenericBuilder) (d : Dir) : GenericBuilder :=
  let _pushed_clone := { b.project with dirs := b.project.dirs ++ [d] }
  b

/-- `Builder::add_dir` as inherited by `RustBuilder`: same trait default,
same discarded push onto the clone returned by `project()`. -/
def RustBuilder.add_dir (b : RustBuilder) (d : Dir) : RustBuilder :=
  let _pushed_clone := { b.project with dirs := b.project.dirs ++ [d] }
  b

/-- `Builder::build` (trait default, used by `GenericBuilder`): runs the
materialization loop over `self.project().dirs`, propagating the first
error with `?`, and returns the project on success. -/
def GenericBuilder.build (b : GenericBuilder) (fs : FS) : FS × Except IOErr Project :=
  match buildDirs fs b.project.dirs with
  | (fs', none) => (fs', Except.ok b.project)
  | (fs', some e) => (fs', Except.error e)

/-- `Builder::build` as overridden by `RustBuilder` (src/builder.rs lines
105-113): textually the same loop as the trait default. -/
def RustBuilder.build (b : RustBuilder) (fs : FS) : FS × Except IOErr Project :=
  match buildDirs fs b.project.dirs with
  | (fs', none) => (fs', Except.ok b.project)
  | (fs', some e) => (fs', Except.error e)

/-- `self.project.dirs[0].files.push(f)`: Rust indexing would panic on an
empty dirs list, which cannot arise for a builder made by `new()`; the
empty case is mapped to the unchanged list. -/
def pushRootFile (dirs : List Dir) (f : File) : List Dir :=
  match dirs with
  | [] => []
  | d :: rest => { d with files := d.files ++ [f] } :: rest

/-- `RustBuilder::add_cargo_toml`: replaces `self.manifest` by the argument,
serializes it (propagating a serialization error with `?`), and pushes the
resulting `Cargo.toml` File onto the root Dir `dirs[0]`. -/
def RustBuilder.add_cargo_toml (b : RustBuilder) (m : Manifest) :
    Except SerError RustBuilder :=
  match manifest_to_bytes m with
  | .error e => .error e
  | .ok contents =>
    .ok { b with
      manifest := m,
      project := { b.project with
        dirs := pushRootFile b.project.dirs
          (File.new (b.path.join ⟨false, ["Cargo.toml"]⟩) contents) } }

/-- `RustBuilder::edition`: sets the edition field of the builder's current
manifest and returns self for chaining. -/
def RustBuilder.edition (b : RustBuilder) (e : Edition) : RustBuilder :=
  { b with manifest := { b.manifest with
      package := { b.manifest.package with edition := e } } }

/-- The flat materialization plan of one Dir: mkdir_p of its path, then a
write of each of its files in order. -/
def dirSteps (d : Dir) : List Step :=
  Step.mkdirP d.path :: d.files.map (fun f => Step.writeFile f.path f.contents)

/-! Helper lemmas shared by the claim theorems. -/

theorem foldl_add_dir_dirs (ds : List Dir) (p : Project) :
    (ds.foldl Project.add_dir p).dirs = p.dirs ++ ds := by
  induction ds generalizing p with
  | nil => simp
  | cons d ds ih => simp [Project.add_dir, ih]

theorem runSteps_append_ok (l1 l2 : List Step) (fs fs1 : FS)
    (h : runSteps fs l1 = (fs1, none)) :
    runSteps fs (l1 ++ l2) = runSteps fs1 l2 := by
  induction l1 generalizing fs with
  | nil =>
    simp [runSteps] at h
    simp [h]
  | cons s l1 ih =>
    simp only [List.cons_append, runSteps] at h ⊢
    cases hs : applyStep fs s with
    | ok fs' =>
      rw [hs] at h
      exact ih fs' h
    | error e =>
      rw [hs] at h
      simp at h

theorem runSteps_append_error (l1 l2 : List Step) (fs fs1 : FS) (e : IOErr)
    (h : runSteps fs l1 = (fs1, some e)) :
    runSteps fs (l1 ++ l2) = (fs1, some e) := by
  induction l1 generalizing fs with
  | nil => simp [runSteps] at h
  | cons s l1 ih =>
    simp only [List.cons_append, runSteps] at h ⊢
    cases hs : applyStep fs s with
    | ok fs' =>
      rw [hs] at h
      exact ih fs' h
    | error e' =>
      rw [hs] at h
      exact h

theorem buildFiles_eq_runSteps (files : List File) (fs : FS) :
    buildFiles fs files
      = runSteps fs (files.map (fun f => Step.writeFile f.path f.contents)) := by
  induction files generalizing fs with
  | nil => rfl
  | cons f files ih =>
    simp only [List.map_cons, runSteps, buildFiles, applyStep]
    cases createFile fs f.path f.contents with
    | ok fs' => exact ih fs'
    | error e => rfl

theorem lookupFS_cons (e : FsPath × Node) (fs : FS) (q : FsPath) :
    lookupFS (e :: fs) q = if e.1 = q then some e.2 else lookupFS fs q := by
  by_cases h : e.1 = q <;> simp [lookupFS, List.find?, h]

theorem lookupFS_filter_out (cond : FsPath → Bool) (fs : FS) (q : FsPath)
    (hq : cond q = true) :
    lookupFS (fs.filter (fun e => !cond e.1)) q = none := by
  induction fs with
  | nil => rfl
  | cons e fs ih =>
    by_cases hc : cond e.1 = true
    · simp only [List.filter_cons, hc, Bool.not_true]
      exact ih
    · have hne : e.1 ≠ q := by
        intro h
        rw [h, hq] at hc
        exact hc rfl
      simp only [List.filter_cons, Bool.not_eq_true] at hc
      simp only [List.filter_cons, hc, Bool.not_false, if_pos, lookupFS_cons,
        if_neg hne]
      exact ih

theorem lookupFS_filter_keep (cond : FsPath → Bool) (fs : FS) (q : FsPath)
    (hq : cond q = false) :
    lookupFS (fs.filter (fun e => !cond e.1)) q = lookupFS fs q := by
  induction fs with
  | nil => rfl
  | cons e fs ih =>
    by_cases hc : cond e.1 = true
    · have hne : e.1 ≠ q := by
        intro h
        rw [h, hq] at hc
        exact Bool.false_ne_true hc
      simp only [List.filter_cons, hc, Bool.not_true, lookupFS_cons, if_neg hne]
      exact ih
    · simp only [Bool.not_eq_true] at hc
      simp only [List.filter_cons, hc, Bool.not_false, if_pos, lookupFS_cons]
      by_cases he : e.1 = q
      · simp [he]
      · simp only [if_neg he]
        exact ih

theorem remove_dir_all_removes (fs fs' : FS) (p q : FsPath)
    (h : remove_dir_all fs p = Except.ok fs')
    (hq : FsPath.isAncestorOrSelf p q = true) :
    lookupFS fs' q = none := by
  unfold remove_dir_all at h
  cases hl : lookupFS fs p with
  | none => rw [hl] at h; cases h
  | some n =>
    cases n with
    | dir =>
      rw [hl] at h
      cases h
      exact lookupFS_filter_out (fun x => FsPath.isAncestorOrSelf p x) fs q hq
    | file c => rw [hl] at h; cases h

theorem remove_dir_all_frame (fs fs' : FS) (p q : FsPath)
    (h : remove_dir_all fs p = Except.ok fs')
    (hq : FsPath.isAncestorOrSelf p q = false) :
    lookupFS fs' q = lookupFS fs q := by
  unfold remove_dir_all at h
  cases hl : lookupFS fs p with
  | none => rw [hl] at h; cases h
  | some n =>
    cases n with
    | dir =>
      rw [hl] at h
      cases h
      exact lookupFS_filter_keep (fun x => FsPath.isAncestorOrSelf p x) fs q hq
    | file c => rw [hl] at h; cases h

/-! The claim theorems. -/

/-- C3: for every Project constructed via new(path), dirs[0] exists and its
path equals path, and this remains true after any sequence of add_dir
calls. -/
theorem C3_root_invariant (path : FsPath) (ds : List Dir) :
    ((ds.foldl Project.add_dir (Project.new path)).dirs.head?.map Dir.path
        = some path)
    ∧ (ds.foldl Project.add_dir (Project.new path)).dirs ≠ [] := by
  rw [foldl_add_dir_dirs]
  simp [Project.new, Dir.new]

/-- C5: add_file appends exactly one File, whose path is the Dir's path
joined with a relative argument or the absolute argument verbatim, with
exactly the given contents; the Dir's own path is unchanged and no
filesystem state is involved. -/
theorem C5_add_file_resolution (d : Dir) (p : FsPath) (c : List Nat) :
    (d.add_file p c).path = d.path
    ∧ (d.add_file p c).files
        = d.files ++ [File.new (if p.isRelative then d.path.join p else p) c] := by
  constructor <;> simp [Dir.add_file]

/-- C2: Builder::add_dir pushes the Dir onto the temporary clone returned
by project() and discards it, so for either builder the wrapped project is
unchanged; at the concrete input of the builder's own test the builder
still holds only the synthesized root Dir, so a subsequent build()
materializes nothing beyond it. -/
theorem C2_add_dir_discards_push :
    (∀ (b : GenericBuilder) (d : Dir), b.add_dir d = b)
    ∧ (∀ (b : RustBuilder) (d : Dir), b.add_dir d = b)
    ∧ ((GenericBuilder.new ⟨false, ["tmp2"]⟩).add_dir
          (Dir.new ⟨false, ["tmp2", "foo"]⟩)).project.dirs
        = [Dir.new ⟨false, ["tmp2"]⟩] :=
  ⟨fun _ _ => rfl, fun _ _ => rfl, rfl⟩

/-- C4: materialization is exactly the sequential run of the flattened
plan — for each Dir in order, mkdir_p of its path and then one
create-and-write step per File — where the first failing step stops the
run with that error and with the state reached by the successful prefix
kept (no rollback), as runSteps does by construction. -/
theorem C4_build_is_sequential_plan (dirs : List Dir) (fs : FS) :
    buildDirs fs dirs = runSteps fs ((dirs.map dirSteps).flatten) := by
  induction dirs generalizing fs with
  | nil => rfl
  | cons d dirs ih =>
    cases hm : mkdir_p fs d.path with
    | error e =>
      simp only [List.map_cons, List.flatten_cons, buildDirs, hm, dirSteps,
        List.cons_append, runSteps, applyStep]
    | ok fs1 =>
      cases hb : buildFiles fs1 d.files with
      | mk fs2 err =>
        have hb' := hb
        rw [buildFiles_eq_runSteps] at hb'
        cases err with
        | none =>
          simp only [List.map_cons, List.flatten_cons, buildDirs, hm, hb,
            dirSteps, List.cons_append, List.append_eq, runSteps, applyStep]
          rw [runSteps_append_ok _ _ _ _ hb', ih]
        | some e =>
          simp only [List.map_cons, List.flatten_cons, buildDirs, hm, hb,
            dirSteps, List.cons_append, List.append_eq, runSteps, applyStep]
          rw [runSteps_append_error _ _ _ _ _ hb']

/-- C1 counterexample: Project::build panics (modelled as none) when a
File's directory path collides with an existing plain file on disk,
instead of returning the I/O error as a recoverable result value. -/
theorem C1_project_build_panics :
    Project.build
      ((Project.new ⟨false, ["tmp"]⟩).add_dir
        ((Dir.new ⟨false, ["tmp", "foo"]⟩).add_file ⟨false, ["bar"]⟩ [101]))
      [(⟨false, ["tmp", "foo"]⟩, Node.file [101])]
      = none := by rfl

/-- C1 (amended): the Builder trait's build() propagates a materialization
failure to its caller as an error value and never panics; Project::build,
by contrast, panics on failure (see the counterexample). -/
theorem C1_builder_build_propagates (b : GenericBuilder) (fs fs' : FS) (e : IOErr)
    (h : buildDirs fs b.project.dirs = (fs', some e)) :
    (b.build fs).2 = Except.error e := by
  simp [GenericBuilder.build, h]

/-- Witness for C1: a concrete builder whose root path collides with a
plain file; build() returns the error as a value. -/
theorem C1_builder_build_witness :
    buildDirs [(⟨false, ["tmp"]⟩, Node.file [])]
        (GenericBuilder.new ⟨false, ["tmp"]⟩).project.dirs
      = ([(⟨false, ["tmp"]⟩, Node.file [])],
         some (IOErr.notADirectory ⟨false, ["tmp"]⟩))
    ∧ ((GenericBuilder.new ⟨false, ["tmp"]⟩).build
          [(⟨false, ["tmp"]⟩, Node.file [])]).2
        = Except.error (IOErr.notADirectory ⟨false, ["tmp"]⟩) :=
  ⟨by rfl, C1_builder_build_propagates _ _ _ _ (by rfl)⟩

/-- C6 counterexample: setting Edition2015 via edition() and then attaching
a manifest yields exactly the same builder — and hence the same serialized
Cargo.toml — as not setting it, and that serialized document differs from
the rendering of an Edition2015 manifest, so the override does not take
effect in the serialization performed at attachment. -/
theorem C6_edition_override_lost :
    (((RustBuilder.new ⟨false, ["foo"]⟩).edition Edition.Edition2015).add_cargo_toml
        Manifest.default)
      = (RustBuilder.new ⟨false, ["foo"]⟩).add_cargo_toml Manifest.default
    ∧ toml_to_string Manifest.default
        ≠ toml_to_string { Manifest.default with
            package := { Manifest.default.package with
              edition := Edition.Edition2015 } } :=
  ⟨rfl, by decide⟩

/-- C6 (amended): edition() sets the edition field of the builder's current
manifest and leaves the wrapped project (and so any already-attached
manifest file) untouched; but add_cargo_toml replaces the builder's
manifest with its argument before serializing, so a prior edition() call
has no effect on the attached manifest file either. -/
theorem C6_edition_semantics (b : RustBuilder) (e : Edition) (m : Manifest) :
    (b.edition e).manifest.package.edition = e
    ∧ (b.edition e).add_cargo_toml m = b.add_cargo_toml m
    ∧ (b.edition e).project = b.project :=
  ⟨rfl, rfl, rfl⟩

/-- C7: add_cargo_toml serializes the manifest at the point of the call and
appends exactly one File, at the builder's root path joined with
"Cargo.toml", to the root Dir dirs[0], leaving every other Dir unchanged;
the outcome is determined by serialization alone, which is total for this
data model, so the call returns ok. -/
theorem C7_add_cargo_toml (b : RustBuilder) (m : Manifest) (d : Dir) (rest : List Dir)
    (h : b.project.dirs = d :: rest) :
    b.add_cargo_toml m
      = Except.ok { b with
          manifest := m,
          project := { b.project with
            dirs := { d with files := d.files
                ++ [File.new (b.path.join ⟨false, ["Cargo.toml"]⟩)
                      (strBytes (toml_to_string m))] } :: rest } } := by
  simp [RustBuilder.add_cargo_toml, manifest_to_bytes, pushRootFile, h]

/-- Witness for C7: attaching the default manifest to a fresh RustBuilder
appends the serialized Cargo.toml to the synthesized root Dir. -/
theorem C7_add_cargo_toml_witness :
    (RustBuilder.new ⟨false, ["foo"]⟩).project.dirs = Dir.new ⟨false, ["foo"]⟩ :: []
    ∧ (RustBuilder.new ⟨false, ["foo"]⟩).add_cargo_toml Manifest.default
        = Except.ok { RustBuilder.new ⟨false, ["foo"]⟩ with
            manifest := Manifest.default,
            project := { (RustBuilder.new ⟨false, ["foo"]⟩).project with
              dirs := { Dir.new ⟨false, ["foo"]⟩ with
                  files := (Dir.new ⟨false, ["foo"]⟩).files
                    ++ [File.new ((⟨false, ["foo"]⟩ : FsPath).join ⟨false, ["Cargo.toml"]⟩)
                          (strBytes (toml_to_string Manifest.default))] } :: [] } } :=
  ⟨rfl, C7_add_cargo_toml _ _ _ _ rfl⟩

/-- C8: manifest serialization is a total function on the model (hence
deterministic), rendering the package name, the canonical version string,
the ordered author list and the 4-digit edition year, and each dependency
entry as a name = "version" line; an absent dependency map omits the
section entirely, as the first two concrete documents show end to end. -/
theorem C8_manifest_rendering (m : Manifest) (deps : List (String × Version)) :
    toml_to_string m = tomlPackage m.package ++ tomlDependencies m.dependencies
    ∧ tomlPackage m.package
        = "[package]\n"
          ++ "name = " ++ tomlQuote m.package.name ++ "\n"
          ++ "version = " ++ tomlQuote m.package.version.render ++ "\n"
          ++ "authors = " ++ tomlList m.package.authors ++ "\n"
          ++ "edition = " ++ tomlQuote m.package.edition.serialize ++ "\n"
    ∧ tomlDependencies none = ""
    ∧ tomlDependencies (some deps)
        = "\n[dependencies]\n"
          ++ String.join (deps.map (fun x => x.1 ++ " = " ++ tomlQuote x.2.render ++ "\n"))
    ∧ toml_to_string
        { package := { name := "foo",
                       version := ⟨0, 1, 0, [], []⟩,
                       authors := ["foo <foo@bar.com>"],
                       edition := .Edition2018 },
          dependencies := none }
        = "[package]\nname = \"foo\"\nversion = \"0.1.0\"\nauthors = [\"foo <foo@bar.com>\"]\nedition = \"2018\"\n"
    ∧ toml_to_string
        { package := Config.default,
          dependencies := some [("semver", ⟨1, 0, 3, [], []⟩)] }
        = "[package]\nname = \"\"\nversion = \"0.0.0\"\nauthors = []\nedition = \"2018\"\n\n[dependencies]\nsemver = \"1.0.3\"\n" :=
  ⟨rfl, rfl, rfl, rfl, by decide, by decide⟩

/-- A sample filesystem used by the teardown witnesses: a materialized tmp2
tree plus an absolute file outside it. -/
def sampleFS : FS :=
  [(⟨false, ["tmp2"]⟩, Node.dir),
   (⟨false, ["tmp2", "foo"]⟩, Node.dir),
   (⟨false, ["tmp2", "foo", "bar"]⟩, Node.file [101]),
   (⟨true, ["outside"]⟩, Node.file [7])]

/-- C9: when clear() succeeds it has recursively deleted dirs[0].path and
everything beneath it — no path at or under the root remains — and when
the recursive deletion fails, clear() panics (none) instead of returning
the failure as an error value. -/
theorem C9_clear_teardown (p : Project) (fs : FS) (d : Dir) (rest : List Dir)
    (hd : p.dirs = d :: rest) :
    (∀ fs' q, Project.clear p fs = some fs' →
        FsPath.isAncestorOrSelf d.path q = true → lookupFS fs' q = none)
    ∧ (∀ e, remove_dir_all fs d.path = Except.error e → Project.clear p fs = none) := by
  constructor
  · intro fs' q hc hq
    simp only [Project.clear, hd] at hc
    cases hr : remove_dir_all fs d.path with
    | ok fs0 =>
      rw [hr] at hc
      simp only [Option.some.injEq] at hc
      exact hc ▸ remove_dir_all_removes fs fs0 d.path q hr hq
    | error e =>
      rw [hr] at hc
      simp at hc
  · intro e he
    simp [Project.clear, hd, he]

/-- Witness for C9: clearing a built tmp2 project removes the root and all
its descendants, and a failing removal makes clear() panic. -/
theorem C9_clear_teardown_witness :
    (Project.new ⟨false, ["tmp2"]⟩).dirs = Dir.new ⟨false, ["tmp2"]⟩ :: []
    ∧ ((∀ fs' q, Project.clear (Project.new ⟨false, ["tmp2"]⟩) sampleFS = some fs' →
          FsPath.isAncestorOrSelf (Dir.new ⟨false, ["tmp2"]⟩).path q = true →
          lookupFS fs' q = none)
      ∧ (∀ e, remove_dir_all sampleFS (Dir.new ⟨false, ["tmp2"]⟩).path = Except.error e →
          Project.clear (Project.new ⟨false, ["tmp2"]⟩) sampleFS = none)) :=
  ⟨rfl, C9_clear_teardown (Project.new ⟨false, ["tmp2"]⟩) sampleFS
    (Dir.new ⟨false, ["tmp2"]⟩) [] rfl⟩

/-- C10: clear() removes exactly the subtree rooted at dirs[0].path — every
path that is not the root or beneath it, such as a File materialized at an
absolute path outside the root, looks exactly as before the teardown. -/
theorem C10_clear_frame (p : Project) (fs fs' : FS) (d : Dir) (rest : List Dir)
    (q : FsPath) (hd : p.dirs = d :: rest) (hc : Project.clear p fs = some fs')
    (hq : FsPath.isAncestorOrSelf d.path q = false) :
    lookupFS fs' q = lookupFS fs q := by
  simp only [Project.clear, hd] at hc
  cases hr : remove_dir_all fs d.path with
  | ok fs0 =>
    rw [hr] at hc
    simp only [Option.some.injEq] at hc
    exact hc ▸ remove_dir_all_frame fs fs0 d.path q hr hq
  | error e =>
    rw [hr] at hc
    simp at hc

/-- Witness for C10: after clearing the tmp2 project, the absolute file
outside the root is still present, with the same contents. -/
theorem C10_clear_frame_witness :
    (Project.new ⟨false, ["tmp2"]⟩).dirs = Dir.new ⟨false, ["tmp2"]⟩ :: []
    ∧ Project.clear (Project.new ⟨false, ["tmp2"]⟩) sampleFS
        = some [(⟨true, ["outside"]⟩, Node.file [7])]
    ∧ FsPath.isAncestorOrSelf (Dir.new ⟨false, ["tmp2"]⟩).path ⟨true, ["outside"]⟩ = false
    ∧ lookupFS [(⟨true, ["outside"]⟩, Node.file [7])] ⟨true, ["outside"]⟩
        = lookupFS sampleFS ⟨true, ["outside"]⟩ :=
  ⟨rfl, by decide, by decide,
   C10_clear_frame (Project.new ⟨false, ["tmp2"]⟩) sampleFS
     [(⟨true, ["outside"]⟩, Node.file [7])] (Dir.new ⟨false, ["tmp2"]⟩) []
     ⟨true, ["outside"]⟩ rfl (by decide) (by decide)⟩
